import Mathlib

/-!
Verification development for the travel-journal route-generation pipeline
(`scripts/generate-routes.js`) and its viewer counterparts
(`lib/types.ts`, `components/JourneyMap.tsx`, the journey view client).

JavaScript numbers are modelled as exact rationals (`ℚ`) in the geometry and
routing layer; the entry-loader layer (`parseMDX`) additionally models the
non-finite results of `parseFloat` with an explicit `JSNum` type.  Strings are
Lean `String`s manipulated through their character lists; the few regular
expressions of the script are deterministic (their character classes are
pairwise disjoint at every choice point), so each is modelled by the
corresponding maximal-munch scanner.
-/

/-! ### Character classes used by the script's regular expressions -/

/-- ASCII whitespace recognised by the JavaScript `\s` class (the script's
inputs are ASCII; the additional Unicode space code points are not modelled). -/
def jsWhitespace (c : Char) : Bool :=
  c = ' ' || c = '\t' || c = '\n' || c = '\r' || c = '\x0b' || c = '\x0c'

/-- JavaScript `\w` word characters: letters, digits, underscore. -/
def isWordChar (c : Char) : Bool :=
  ('a' ≤ c && c ≤ 'z') || ('A' ≤ c && c ≤ 'Z') || ('0' ≤ c && c ≤ '9') || c = '_'

/-- Numeric value of a decimal digit character. -/
def digitVal (c : Char) : ℕ := c.toNat - 48

/-- Value of a left-to-right digit string. -/
def natOfDigits (ds : List Char) : ℕ := ds.foldl (fun a c => 10 * a + digitVal c) 0

/-- Value of the fractional digits after a decimal point. -/
def fracOfDigits (ds : List Char) : ℚ := (natOfDigits ds : ℚ) / (10 ^ ds.length)

/-! ### The coordinate-literal pattern of `parseLocationRef`

The script tests `ref.match(/^(-?\d+\.?\d*),\s*(-?\d+\.?\d*)$/)`.  The number
pattern `-?\d+\.?\d*` is matched by maximal munch (digits, `.` and `,` are
pairwise disjoint, so the regex engine's greedy scan is the unique match). -/

/-- Scan one `-?\d+\.?\d*` number; returns its exact value and the rest. -/
def parseCoordNum (cs : List Char) : Option (ℚ × List Char) :=
  let p := match cs with
    | '-' :: t => (true, t)
    | _ => (false, cs)
  let neg := p.1
  let ds := p.2.takeWhile Char.isDigit
  let cs2 := p.2.dropWhile Char.isDigit
  if ds.isEmpty then none
  else
    let q := match cs2 with
      | '.' :: t => (t.takeWhile Char.isDigit, t.dropWhile Char.isDigit)
      | _ => ([], cs2)
    let v : ℚ := (natOfDigits ds : ℚ) + fracOfDigits q.1
    some (if neg then -v else v, q.2)

/-- Model of the full-anchored coordinate regex of `parseLocationRef`
(line 69): on success returns the two parsed numbers `(lat, lng)`. -/
def coordMatch (ref : String) : Option (ℚ × ℚ) :=
  match parseCoordNum ref.data with
  | some (a, ',' :: r1) =>
    (match parseCoordNum (r1.dropWhile jsWhitespace) with
     | some (b, []) => some (a, b)
     | _ => none)
  | _ => none

/-! ### Typed data model (from `lib/types.ts`) -/

/-- A geographic location (lib/types.ts `Location`); coordinates are modelled
as exact rationals. -/
structure Location where
  lat : ℚ
  lng : ℚ
  name : Option String := none
  deriving Repr, DecidableEq

/-- One travel-segment definition from an entry's frontmatter
(`segments:` items with `mode`, `from`, `to`).  `from`/`to` are renamed
`fromRef`/`toRef` because `from` is a Lean keyword. -/
structure SegmentDef where
  mode : String
  fromRef : String
  toRef : String
  deriving Repr, DecidableEq

/-- Entry metadata as consumed by the route generator. -/
structure EntryMetadata where
  date : String
  title : String
  location : Location
  pois : Option (List Location) := none
  segments : Option (List SegmentDef) := none
  transportMode : Option String := none
  deriving Repr, DecidableEq

/-- A loaded journal entry (the generator only uses `metadata`). -/
structure Entry where
  metadata : EntryMetadata
  deriving Repr, DecidableEq

/-! ### `parseLocationRef` (generate-routes.js lines 67–109) -/

/-- Find a point of interest by name, as `pois.find(l => l.name === ref)`;
an absent `name` (undefined) never equals a string. -/
def poiFind (ps : List Location) (ref : String) : Option Location :=
  ps.find? (fun l => l.name == some ref)

/-- Match one entry the way one iteration of the backward loop does:
primary-location name first, then its points of interest. -/
def entryMatch (ref : String) (e : Entry) : Option Location :=
  if e.metadata.location.name = some ref then some e.metadata.location
  else
    match e.metadata.pois with
    | some ps => poiFind ps ref
    | none => none

/-- The backward search loop (lines 97–106), expressed on the reversed list:
`searchRev ref l` inspects `l` front to back. -/
def searchRev (ref : String) : List Entry → Option Location
  | [] => none
  | e :: rest =>
    match entryMatch ref e with
    | some loc => some loc
    | none => searchRev ref rest

/-- The error message thrown at line 108. -/
def unresolvedMsg (ref : String) : String :=
  "Could not resolve location reference: \"" ++ ref ++ "\""

/-- Tail of `parseLocationRef`: current entry's pois (lines 91–94), then the
backward loop over all entries, then the throw. -/
def resolveByName (ref : String) (currentEntry : Entry) (allEntries : List Entry) :
    Except String Location :=
  let afterPois : Except String Location :=
    match searchRev ref allEntries.reverse with
    | some loc => .ok loc
    | none => .error (unresolvedMsg ref)
  match currentEntry.metadata.pois with
  | some ps =>
    match poiFind ps ref with
    | some loc => .ok loc
    | none => afterPois
  | none => afterPois

/-- Model of `parseLocationRef` (lines 67–109).  A thrown error is an
`Except.error` carrying the thrown message. -/
def parseLocationRef (ref : String) (currentEntry : Entry) (previousEntry : Option Entry)
    (allEntries : List Entry) : Except String Location :=
  match coordMatch ref with
  | some (la, ln) => .ok { lat := la, lng := ln }
  | none =>
    if ref = "current" ∨ currentEntry.metadata.location.name = some ref then
      .ok currentEntry.metadata.location
    else
      match previousEntry with
      | some prev =>
        if ref = "previous" then .ok prev.metadata.location
        else if prev.metadata.location.name = some ref then .ok prev.metadata.location
        else resolveByName ref currentEntry allEntries
      | none => resolveByName ref currentEntry allEntries

/-! ### `generateCurvedPath` (lines 38–61) -/

/-- Model of `generateCurvedPath`; produces `segments + 1` points `[lng, lat]`
on a quadratic Bezier curve.  The call sites all use the default
`segments = 20`. -/
def generateCurvedPath (start endLoc : Location) (segments : ℕ := 20) : List (ℚ × ℚ) :=
  let smoothness : ℚ := 0.2
  let dx := endLoc.lng - start.lng
  let dy := endLoc.lat - start.lat
  let cx := (start.lng + endLoc.lng) / 2 + dy * smoothness
  let cy := (start.lat + endLoc.lat) / 2 - dx * smoothness
  (List.range (segments + 1)).map fun (t : ℕ) =>
    let s : ℚ := (t : ℚ) / (segments : ℚ)
    let s2 : ℚ := 1 - s
    (s2 * s2 * start.lng + 2 * s2 * s * cx + s * s * endLoc.lng,
     s2 * s2 * start.lat + 2 * s2 * s * cy + s * s * endLoc.lat)

/-! ### `fetchRoute` (lines 9–33)

The single HTTP call is modelled by an oracle mapping the request (the OSRM
profile and the two coordinates interpolated into the URL) to either a parsed
response body or `none` (network error / JSON failure, which the `catch`
swallows).  The result records the requests issued. -/

/-- An OSRM request as determined by the URL built at line 19. -/
structure OsrmRequest where
  profile : String
  start : Location
  dest : Location
  deriving Repr, DecidableEq

/-- The parts of the response body the script inspects: `data.code` and
`data.routes?.[0]?.geometry?.coordinates` (absent chain modelled as `none`). -/
structure OsrmData where
  code : String
  firstRouteCoords : Option (List (ℚ × ℚ))

/-- Result of `fetchRoute`: the returned coordinate list and the HTTP
requests issued during the call. -/
structure FetchResult where
  route : List (ℚ × ℚ)
  requests : List OsrmRequest
  deriving Repr

/-- The OSRM profile chosen at line 16 (`train` is proxied by `car`). -/
def osrmProfile (mode : String) : String := if mode = "train" then "car" else mode

/-- Model of `fetchRoute` (lines 9–33). -/
def fetchRoute (oracle : OsrmRequest → Option OsrmData) (start endLoc : Location)
    (mode : String) : FetchResult :=
  if mode ∈ (["ferry", "flight", "direct"] : List String) then
    { route := generateCurvedPath start endLoc, requests := [] }
  else
    let req : OsrmRequest := ⟨osrmProfile mode, start, endLoc⟩
    match oracle req with
    | some data =>
      match data.firstRouteCoords with
      | some cs =>
        if data.code = "Ok" then { route := cs, requests := [req] }
        else { route := generateCurvedPath start endLoc, requests := [req] }
      | none => { route := generateCurvedPath start endLoc, requests := [req] }
    | none => { route := generateCurvedPath start endLoc, requests := [req] }

/-! ### Polyline codec (the `@mapbox/polyline` dependency, precision 5)

The generator stores each route as `polyline.encode(route.map(swap))` and the
viewer restores it with `polyline.decode(...)map(swap)`.  The library is an
external dependency (not part of this repository), so it is modelled here by
the Google encoded-polyline algorithm it implements, with exact integer
arithmetic: values are multiplied by `1e5` and rounded half away from zero
(the library's `py2_round`), consecutive values are delta-encoded, each delta
is zigzag-mapped to a natural number and emitted as little-endian base-32
chunks offset by 63, with bit 5 as the continuation bit. -/

/-- The library's `py2_round`: round half away from zero. -/
def py2round (q : ℚ) : ℤ := if q < 0 then -⌊-q + 1 / 2⌋ else ⌊q + 1 / 2⌋

/-- Scale by the precision-5 factor and round. -/
def round5 (q : ℚ) : ℤ := py2round (q * 100000)

/-- Emit one value as base-32 chunks with continuation bit, `+63`, as the
library's `while (coordinate >= 0x20)` loop does. -/
def chunkSeq (v : ℕ) : List ℕ :=
  if h : v < 32 then [v + 63]
  else (32 + v % 32 + 63) :: chunkSeq (v / 32)
  decreasing_by exact Nat.div_lt_self (by omega) (by omega)

/-- Zigzag step of the encoder: `coordinate <<= 1; if (negative) coordinate =
~coordinate` (exact integers; the valid coordinate range never reaches the
32-bit width of the JavaScript operators). -/
def zigzag (d : ℤ) : ℕ := (if d < 0 then -2 * d - 1 else 2 * d).toNat

/-- Character codes for one signed delta. -/
def encodeSigned (d : ℤ) : List ℕ := chunkSeq (zigzag d)

/-- Delta-encode a coordinate list against the previous rounded pair
(`0, 0` initially, exactly as the library encodes the first pair). -/
def encodeDeltas (pa pb : ℤ) : List (ℚ × ℚ) → List ℕ
  | [] => []
  | (a, b) :: rest =>
    encodeSigned (round5 a - pa) ++ encodeSigned (round5 b - pb) ++
      encodeDeltas (round5 a) (round5 b) rest

/-- Model of `polyline.encode` at precision 5 (first component first, i.e.
`[lat, lng]` pairs at the generator's call site). -/
def polylineEncode (cs : List (ℚ × ℚ)) : String :=
  ⟨(encodeDeltas 0 0 cs).map Char.ofNat⟩

/-- Decode one little-endian base-32 varint; returns its value and the rest of
the stream.  Characters below code 63 are rejected (`none`): the library would
produce garbage on such malformed input, and `encode` never emits them. -/
def decodeUInt : List Char → Option (ℕ × List Char)
  | [] => none
  | c :: rest =>
    if c.toNat < 63 then none
    else
      let b := c.toNat - 63
      if b < 32 then some (b, rest)
      else
        match decodeUInt rest with
        | some (v, r) => some (b % 32 + 32 * v, r)
        | none => none

/-- Zigzag step of the decoder:
`(result & 1) ? ~(result >> 1) : (result >> 1)`. -/
def unzigzag (v : ℕ) : ℤ := if v % 2 = 1 then -(v / 2 : ℕ) - 1 else (v / 2 : ℕ)

/-- Decoder loop with explicit fuel (the library's `while (index < str.length)`
advances by at least one character per read, so fuel equal to the stream
length never runs out); accumulates the running integer coordinates. -/
def decodeLoopF : ℕ → List Char → ℤ → ℤ → Option (List (ℚ × ℚ))
  | _, [], _, _ => some []
  | 0, _ :: _, _, _ => none
  | fuel + 1, c :: cs, la, lb =>
    match decodeUInt (c :: cs) with
    | none => none
    | some (dv1, r1) =>
      match decodeUInt r1 with
      | none => none
      | some (dv2, r2) =>
        let la2 := la + unzigzag dv1
        let lb2 := lb + unzigzag dv2
        match decodeLoopF fuel r2 la2 lb2 with
        | none => none
        | some rest => some (((la2 : ℚ) / 100000, (lb2 : ℚ) / 100000) :: rest)

/-- Model of `polyline.decode` at precision 5. -/
def polylineDecode (s : String) : Option (List (ℚ × ℚ)) :=
  decodeLoopF s.data.length s.data 0 0

/-- The generator's encoding step (main, lines 256–259): swap each `[lng,lat]`
pair to `[lat,lng]`, then encode. -/
def genEncode (route : List (ℚ × ℚ)) : String :=
  polylineEncode (route.map fun p => (p.2, p.1))

/-- The viewer's decoding step (JourneyViewClient): decode, then swap each
`[lat,lng]` pair back to `[lng,lat]`. -/
def viewDecode (s : String) : Option (List (ℚ × ℚ)) :=
  (polylineDecode s).map (List.map fun p => (p.2, p.1))

/-! ### The batch loop of `main` (lines 192–323)

File-system and network effects of the second pass are made explicit: the
initial contents of the routes directory are an existence predicate over
paths, the HTTP calls go through the `fetchRoute` oracle, and each entry's
processing is recorded as an `EntryOutcome` (resolution attempts, HTTP
requests, and the written file, if any).  Console output and the rate-limit
delay are not modelled. -/

/-- Observable per-segment actions: a resolution attempt of a location
reference, or an HTTP request. -/
inductive Effect
  | resolve (ref : String)
  | http (req : OsrmRequest)
  deriving Repr, DecidableEq

/-- One record of the saved route file (main, lines 261–266). -/
structure SegmentRec where
  mode : String
  fromLabel : Option String
  toLabel : Option String
  polyline : String
  deriving Repr, DecidableEq

/-- Label of an endpoint: `loc.name || lat-lng-string` (lines 263–264); the
JavaScript `||` falls through on an absent or empty name.  The decimal
rendering of the template literal is abstracted by Lean's rational printer. -/
def locLabel (loc : Location) : String :=
  match loc.name with
  | some n => if n = "" then toString loc.lat ++ ", " ++ toString loc.lng else n
  | none => toString loc.lat ++ ", " ++ toString loc.lng

/-- The output path `routesDir/<date>.json` (the constant directory prefix is
irrelevant to the model). -/
def routeFilePath (date : String) : String := date ++ ".json"

/-- Process one segment definition (the `try` body, lines 244–271): resolve
both references, skip when they coincide, otherwise fetch and build the
record; a thrown resolution error is caught and yields no record. -/
def processOneSegment (slice : List Entry) (e : Entry) (prev : Option Entry)
    (oracle : OsrmRequest → Option OsrmData) (s : SegmentDef) :
    List Effect × Option SegmentRec :=
  match parseLocationRef s.fromRef e prev slice with
  | .error _ => ([.resolve s.fromRef], none)
  | .ok startLoc =>
    match parseLocationRef s.toRef e prev slice with
    | .error _ => ([.resolve s.fromRef, .resolve s.toRef], none)
    | .ok endLoc =>
      if startLoc.lat = endLoc.lat ∧ startLoc.lng = endLoc.lng then
        ([.resolve s.fromRef, .resolve s.toRef], none)
      else
        let fr := fetchRoute oracle startLoc endLoc s.mode
        ([.resolve s.fromRef, .resolve s.toRef] ++ fr.requests.map .http,
         some { mode := s.mode, fromLabel := some (locLabel startLoc),
                toLabel := some (locLabel endLoc), polyline := genEncode fr.route })

/-- The segment loop (lines 241–272): each segment is processed independently
and successful records are collected in order. -/
def processSegments (slice : List Entry) (e : Entry) (prev : Option Entry)
    (oracle : OsrmRequest → Option OsrmData) :
    List SegmentDef → List Effect × List SegmentRec
  | [] => ([], [])
  | s :: rest =>
    let head := processOneSegment slice e prev oracle s
    let tail := processSegments slice e prev oracle rest
    (head.1 ++ tail.1, head.2.toList ++ tail.2)

/-- Route generation for one (non-cached) entry: the `segments` branch
(lines 240–273) or the legacy single-`transportMode` branch (lines 275–304). -/
def processEntryBody (slice : List Entry) (e : Entry) (prev : Option Entry)
    (oracle : OsrmRequest → Option OsrmData) : List Effect × List SegmentRec :=
  match e.metadata.segments with
  | some segs => processSegments slice e prev oracle segs
  | none =>
    match e.metadata.transportMode, prev with
    | some tm, some p =>
      if tm = "" then ([], [])
      else if p.metadata.location.lat = e.metadata.location.lat ∧
          p.metadata.location.lng = e.metadata.location.lng then ([], [])
      else
        let fr := fetchRoute oracle p.metadata.location e.metadata.location tm
        (fr.requests.map .http,
         [{ mode := tm, fromLabel := p.metadata.location.name,
            toLabel := e.metadata.location.name, polyline := genEncode fr.route }])
    | _, _ => ([], [])

/-- What the batch did for one entry. -/
structure EntryOutcome where
  date : String
  cached : Bool
  effects : List Effect
  recs : List SegmentRec
  written : Option (String × List SegmentRec)
  deriving Repr

/-- The second pass of `main` (lines 221–317): thread the file-existence
state, skip entries whose route file already exists, otherwise process the
entry and write the file when at least one record was produced.  The `slice`
argument accumulates `allEntries.slice(0, i + 1)`. -/
def runEntries (oracle : OsrmRequest → Option OsrmData) :
    List Entry → List Entry → Option Entry → (String → Bool) → List EntryOutcome
  | [], _, _, _ => []
  | e :: rest, processed, prev, fs =>
    let routePath := routeFilePath e.metadata.date
    if fs routePath then
      { date := e.metadata.date, cached := true, effects := [], recs := [],
        written := none } ::
        runEntries oracle rest (processed ++ [e]) (some e) fs
    else
      let body := processEntryBody (processed ++ [e]) e prev oracle
      let written := if body.2.isEmpty then none else some (routePath, body.2)
      let fs2 : String → Bool := fun p => fs p || (p = routePath && !body.2.isEmpty)
      { date := e.metadata.date, cached := false, effects := body.1, recs := body.2,
        written := written } ::
        runEntries oracle rest (processed ++ [e]) (some e) fs2

/-- The whole second pass over the loaded entries. -/
def runMain (entries : List Entry) (oracle : OsrmRequest → Option OsrmData)
    (fs0 : String → Bool) : List EntryOutcome :=
  runEntries oracle entries [] none fs0

/-! ### Transport modes and display styling (lib/types.ts, JourneyMap.tsx) -/

/-- The `TransportMode` union of lib/types.ts and JourneyMap.tsx. -/
inductive TransportMode
  | train
  | car
  | foot
  | ferry
  | direct
  deriving Repr, DecidableEq

/-- The string form of each mode as it appears in frontmatter and JSON. -/
def TransportMode.toStr : TransportMode → String
  | .train => "train"
  | .car => "car"
  | .foot => "foot"
  | .ferry => "ferry"
  | .direct => "direct"

/-- Line styling of a trail segment (JourneyMap.tsx `getModeStyle`); a `none`
dash array is the solid line. -/
structure ModeStyle where
  color : String
  width : ℕ
  dashArray : Option (List ℕ)
  deriving Repr, DecidableEq

/-- Model of `getModeStyle` (JourneyMap.tsx lines 70–105); the `default`
arm coincides with `direct`. -/
def getModeStyle : TransportMode → ModeStyle
  | .train => { color := "#ef4444", width := 3, dashArray := some [2, 2] }
  | .car => { color := "#3b82f6", width := 3, dashArray := none }
  | .foot => { color := "#10b981", width := 2, dashArray := some [1, 3] }
  | .ferry => { color := "#06b6d4", width := 3, dashArray := some [6, 3] }
  | .direct => { color := "#9ca3af", width := 2, dashArray := some [4, 4] }

/-! ### The entry loader `parseMDX` (lines 114–190)

The simplified YAML parser mutates shared objects through `currentObject` /
`currentArray` references, so the model carries an explicit heap: object and
array identifiers into association lists.  `parseFloat` results are modelled
by `JSNum`, which keeps NaN and the infinities observable. -/

/-- A JavaScript number as produced by `parseFloat`: a finite value (kept as
an exact rational), NaN, or an infinity. -/
inductive JSNum
  | fin (q : ℚ)
  | nan
  | posInf
  | negInf
  deriving Repr, DecidableEq

/-- Smallest magnitude at which a correctly-rounded decimal overflows the
IEEE-754 double range: `2^1024 - 2^970`, written as an explicit numeral so
concrete runs of the parser evaluate without huge-power reductions. -/
def jsOverflow : ℚ := 179769313486231580793728971405303415079934132710037826936173778980444968292764750946649017977587207096330286416692887910946555547851940402630657488671505820681908902000708383676273854845817711531764475730270069855571366959622842914819860834936475292719074168444365510704342711559699508093042880177904174497792

/-- The overflow bound is the intended power difference. -/
lemma jsOverflow_eq : jsOverflow = 2 ^ 1024 - 2 ^ 970 := by norm_num [jsOverflow]

/-- Model of JavaScript `parseFloat`: skip leading whitespace, accept an
optional sign, then the longest `StrDecimalLiteral` prefix (`Infinity`,
digits, optional fraction, optional exponent); anything else is NaN.  Finite
values are kept exact rather than rounded to a double, except that values
beyond the double range overflow to the infinities. -/
def jsParseFloat (str : String) : JSNum :=
  let cs := str.data.dropWhile jsWhitespace
  let p := match cs with
    | '-' :: t => (true, t)
    | '+' :: t => (false, t)
    | _ => (false, cs)
  let neg := p.1
  let cs1 := p.2
  if cs1.take 8 = "Infinity".data then (if neg then .negInf else .posInf)
  else
    let ds := cs1.takeWhile Char.isDigit
    let cs2 := cs1.dropWhile Char.isDigit
    let q := match cs2 with
      | '.' :: t => (t.takeWhile Char.isDigit, t.dropWhile Char.isDigit)
      | _ => ([], cs2)
    if ds.isEmpty ∧ q.1.isEmpty then .nan
    else
      let mant : ℚ := (natOfDigits ds : ℚ) + fracOfDigits q.1
      let expVal : ℤ := match q.2 with
        | 'e' :: t | 'E' :: t =>
          let ep := match t with
            | '-' :: u => (true, u)
            | '+' :: u => (false, u)
            | _ => (false, t)
          let eds := ep.2.takeWhile Char.isDigit
          if eds.isEmpty then 0
          else if ep.1 then -(natOfDigits eds : ℤ) else (natOfDigits eds : ℤ)
        | _ => 0
      let v0 : ℚ := mant * (10 : ℚ) ^ expVal
      let v : ℚ := if neg then -v0 else v0
      if v ≤ -jsOverflow then .negInf
      else if jsOverflow ≤ v then .posInf
      else .fin v

/-- A property value of a frontmatter object: the raw string from the YAML
pass, or a number installed by the conversion pass. -/
inductive FieldVal
  | s (v : String)
  | num (v : JSNum)
  deriving Repr, DecidableEq

/-- A metadata value: a scalar string, or a reference into the object or
array heap. -/
inductive YVal
  | s (v : String)
  | obj (id : ℕ)
  | arr (id : ℕ)
  deriving Repr, DecidableEq

/-- Property assignment on an association list (replace or append). -/
def setAssoc {α β : Type} [BEq α] : List (α × β) → α → β → List (α × β)
  | [], k, v => [(k, v)]
  | (k1, v1) :: rest, k, v =>
    if k1 == k then (k, v) :: rest else (k1, v1) :: setAssoc rest k v

/-- Parser state: the metadata record, the object and array heaps, the
allocation counter, and the three mutable cursors of the loop. -/
structure PMState where
  metadata : List (String × YVal)
  objs : List (ℕ × List (String × FieldVal))
  arrs : List (ℕ × List ℕ)
  nextId : ℕ
  currentKey : Option String
  currentObject : Option ℕ
  currentArray : Option ℕ
  deriving Repr, DecidableEq

/-- The initial parser state. -/
def initPMState : PMState :=
  { metadata := [], objs := [], arrs := [], nextId := 0,
    currentKey := none, currentObject := none, currentArray := none }

/-- Fields of a heap object (a missing identifier reads as empty). -/
def getObj (st : PMState) (id : ℕ) : List (String × FieldVal) :=
  (st.objs.lookup id).getD []

/-- Set one field of a heap object. -/
def setObjField (st : PMState) (id : ℕ) (k : String) (v : FieldVal) : PMState :=
  { st with objs := setAssoc st.objs id (setAssoc (getObj st id) k v) }

/-- Items of a heap array. -/
def getArr (st : PMState) (id : ℕ) : List ℕ :=
  (st.arrs.lookup id).getD []

/-- Push an object onto a heap array. -/
def pushArr (st : PMState) (aid oid : ℕ) : PMState :=
  { st with arrs := setAssoc st.arrs aid (getArr st aid ++ [oid]) }

/-- Line terminators excluded by the `.` of the anchored `(.*)$` groups. -/
def termChar (c : Char) : Bool :=
  c = '\n' || c = '\r' || c = ' ' || c = ' '

/-- JavaScript `String.prototype.trim` (ASCII whitespace). -/
def jsTrim (s : String) : String :=
  ⟨((s.data.dropWhile jsWhitespace).reverse.dropWhile jsWhitespace).reverse⟩

/-- Whether the trimmed line is a comment (`trimmed.startsWith('#')`). -/
def startsWithHash (s : String) : Bool :=
  match s.data with
  | '#' :: _ => true
  | _ => false

/-- A quote character stripped by `value.replace(/^["']|["']$/g, '')`. -/
def isQuote (c : Char) : Bool := c = '"' || c = '\''

/-- Model of the quote-stripping `replace`: remove one leading and one
trailing quote character. -/
def stripQuotes (s : String) : String :=
  let l1 := match s.data with
    | c :: rest => if isQuote c then rest else s.data
    | [] => []
  let l2 := match l1.getLast? with
    | some c => if isQuote c then l1.dropLast else l1
    | none => l1
  ⟨l2⟩

/-- Model of `line.match(/^(\s*)(\w+):\s*(.*)$/)`: indentation width, key, and
the value with its leading whitespace stripped.  The classes at each choice
point are disjoint, so greedy scanning is exact; the `(.*)$` group fails when
a line-terminator character remains. -/
def kvMatch (line : String) : Option (ℕ × String × String) :=
  let ws := line.data.takeWhile jsWhitespace
  let r1 := line.data.dropWhile jsWhitespace
  let w := r1.takeWhile isWordChar
  let r2 := r1.dropWhile isWordChar
  if w.isEmpty then none
  else
    match r2 with
    | ':' :: tail =>
      let rest := tail.dropWhile jsWhitespace
      if rest.any termChar then none
      else some (ws.length, ⟨w⟩, ⟨rest⟩)
    | _ => none

/-- Model of the test `line.match(/^\s+-\s+/)`. -/
def dashTest (line : String) : Bool :=
  let ws := line.data.takeWhile jsWhitespace
  match line.data.dropWhile jsWhitespace with
  | '-' :: rest =>
    !ws.isEmpty &&
      (match rest with
       | c :: _ => jsWhitespace c
       | [] => false)
  | _ => false

/-- Model of `line.match(/^\s+-\s+(\w+):\s*(.*)$/)`. -/
def itemMatch (line : String) : Option (String × String) :=
  let ws := line.data.takeWhile jsWhitespace
  match line.data.dropWhile jsWhitespace with
  | '-' :: rest =>
    if ws.isEmpty then none
    else
      let ws2 := rest.takeWhile jsWhitespace
      let r1 := rest.dropWhile jsWhitespace
      if ws2.isEmpty then none
      else
        let w := r1.takeWhile isWordChar
        let r2 := r1.dropWhile isWordChar
        if w.isEmpty then none
        else
          match r2 with
          | ':' :: tail =>
            let v := tail.dropWhile jsWhitespace
            if v.any termChar then none else some (⟨w⟩, ⟨v⟩)
          | _ => none
  | _ => none

/-- Model of the test `line.match(/^\s{4,}\w+:/)`. -/
def contTest (line : String) : Bool :=
  let ws := line.data.takeWhile jsWhitespace
  let r1 := line.data.dropWhile jsWhitespace
  if ws.length < 4 then false
  else
    let w := r1.takeWhile isWordChar
    let r2 := r1.dropWhile isWordChar
    !w.isEmpty &&
      (match r2 with
       | ':' :: _ => true
       | _ => false)

/-- Model of `line.match(/^\s+(\w+):\s*(.*)$/)`. -/
def contMatch (line : String) : Option (String × String) :=
  let ws := line.data.takeWhile jsWhitespace
  let r1 := line.data.dropWhile jsWhitespace
  if ws.isEmpty then none
  else
    let w := r1.takeWhile isWordChar
    let r2 := r1.dropWhile isWordChar
    if w.isEmpty then none
    else
      match r2 with
      | ':' :: tail =>
        let rest := tail.dropWhile jsWhitespace
        if rest.any termChar then none else some (⟨w⟩, ⟨rest⟩)
      | _ => none

/-- One iteration of the `frontmatterLines.forEach` body (lines 132–174). -/
def processLine (st : PMState) (line : String) : PMState :=
  let trimmed := jsTrim line
  if trimmed = "" || startsWithHash trimmed then st
  else
    match kvMatch line with
    | some (indent, key, value) =>
      if indent = 0 then
        if value ≠ "" then
          { st with metadata := setAssoc st.metadata key (.s (stripQuotes value)),
                    currentKey := some key }
        else
          let id := st.nextId
          { st with metadata := setAssoc st.metadata key (.obj id),
                    objs := setAssoc st.objs id [],
                    nextId := id + 1,
                    currentKey := some key,
                    currentObject := some id,
                    currentArray := none }
      else
        match st.currentObject with
        | some oid =>
          if value ≠ "" then setObjField st oid key (.s (stripQuotes value)) else st
        | none => st
    | none =>
      if dashTest line then
        let p :=
          match st.currentArray with
          | some aid => (st, aid)
          | none =>
            let aid := st.nextId
            ({ st with arrs := setAssoc st.arrs aid [],
                       metadata := setAssoc st.metadata (st.currentKey.getD "null")
                         (.arr aid),
                       nextId := aid + 1,
                       currentArray := some aid }, aid)
        let st1 := p.1
        let aid := p.2
        match itemMatch line with
        | some (key, value) =>
          let oid := st1.nextId
          let st2 := { st1 with
            objs := setAssoc st1.objs oid [(key, .s (stripQuotes value))],
            nextId := oid + 1,
            currentObject := some oid }
          pushArr st2 aid oid
        | none => st1
      else
        match st.currentObject with
        | some oid =>
          if contTest line then
            match contMatch line with
            | some (key, value) => setObjField st oid key (.s (stripQuotes value))
            | none => st
          else st
        | none => st

/-- Model of `content.split('\n')`. -/
def splitLinesAux : List Char → List Char → List String
  | [], acc => [⟨acc.reverse⟩]
  | '\n' :: rest, acc => (⟨acc.reverse⟩ : String) :: splitLinesAux rest []
  | c :: rest, acc => splitLinesAux rest (c :: acc)

/-- Split a content string into its lines. -/
def jsSplitLines (s : String) : List String := splitLinesAux s.data []

/-- The YAML pass of `parseMDX` (lines 115–174): locate the two `---`
delimiters and fold the frontmatter lines through `processLine`.  Returns the
pre-conversion state and the body lines. -/
def parseMDXRaw (content : String) : Except String (PMState × List String) :=
  let lines := jsSplitLines content
  match lines.findIdx? (fun l => jsTrim l = "---") with
  | none => .error "Invalid MDX format"
  | some i1 =>
    match (lines.drop (i1 + 1)).findIdx? (fun l => jsTrim l = "---") with
    | none => .error "Invalid MDX format"
    | some k =>
      let fm := (lines.drop (i1 + 1)).take k
      let body := lines.drop (i1 + 1 + k + 1)
      .ok (fm.foldl processLine initPMState, body)

/-- `parseFloat` applied to a property read: a missing property is
`undefined`, and `parseFloat(undefined)` is NaN. -/
def parseFloatField (v : Option FieldVal) : JSNum :=
  match v with
  | some (.s str) => jsParseFloat str
  | some (.num n) => n
  | none => .nan

/-- The numeric conversion of `metadata.location` (lines 177–180): when the
location is a heap object, its `lat` and `lng` fields are overwritten with
`parseFloat` of their current values.  A scalar-string location is left
unchanged (property writes on a primitive are silently dropped in sloppy
mode); the write of NaN properties onto an array-valued location is not
modelled. -/
def convertLocation (st : PMState) : PMState :=
  match st.metadata.lookup "location" with
  | some (.obj id) =>
    let st1 := setObjField st id "lat" (.num (parseFloatField ((getObj st id).lookup "lat")))
    setObjField st1 id "lng" (.num (parseFloatField ((getObj st1 id).lookup "lng")))
  | _ => st

/-- The numeric conversion of `metadata.pois` (lines 181–187): the script maps
the array to fresh objects with converted `lat`/`lng`.  The fresh objects are
returned directly (the script stores them back into `metadata.pois`); a truthy
non-array value makes `.map` throw a TypeError. -/
def convertPois (st : PMState) :
    Except String (Option (List (List (String × FieldVal)))) :=
  match st.metadata.lookup "pois" with
  | none => .ok none
  | some (.s v) =>
    if v = "" then .ok none
    else .error "TypeError: metadata.pois.map is not a function"
  | some (.obj _) => .error "TypeError: metadata.pois.map is not a function"
  | some (.arr aid) =>
    .ok (some ((getArr st aid).map fun oid =>
      let flds := getObj st oid
      setAssoc (setAssoc flds "lat" (.num (parseFloatField (flds.lookup "lat"))))
        "lng" (.num (parseFloatField (flds.lookup "lng")))))

/-- The full result of `parseMDX`. -/
structure ParsedMDX where
  st : PMState
  pois : Option (List (List (String × FieldVal)))
  body : List String
  deriving Repr, DecidableEq

/-- Model of `parseMDX` (lines 114–190): YAML pass, then the numeric
conversions of `location` and `pois`. -/
def parseMDX (content : String) : Except String ParsedMDX :=
  match parseMDXRaw content with
  | .error e => .error e
  | .ok (st, body) =>
    let st1 := convertLocation st
    match convertPois st1 with
    | .error e => .error e
    | .ok ps => .ok { st := st1, pois := ps, body := body }

/-! ### Claim C4: the curved fallback path -/

/-- Quadratic Bezier interpolation at parameter `u`, as the claim states it. -/
def quadBezierPoint (p0 c p1 : ℚ × ℚ) (u : ℚ) : ℚ × ℚ :=
  ((1 - u) ^ 2 * p0.1 + 2 * (1 - u) * u * c.1 + u ^ 2 * p1.1,
   (1 - u) ^ 2 * p0.2 + 2 * (1 - u) * u * c.2 + u ^ 2 * p1.2)

/-- The claim's control point: the segment midpoint offset by `0.2` times the
perpendicular `(dy, -dx)` of the displacement vector, in `[lng, lat]` order. -/
def bezierControl (s e : Location) : ℚ × ℚ :=
  ((s.lng + e.lng) / 2 + 0.2 * (e.lat - s.lat),
   (s.lat + e.lat) / 2 + 0.2 * (-(e.lng - s.lng)))

/-- C4: `generateCurvedPath` returns exactly 21 points, the `t`-th being the
quadratic Bezier curve with the claimed control point sampled at `t / 20`;
the first point is the start's `[lng, lat]` and the last is the end's. -/
theorem generateCurvedPath_bezier (s e : Location) :
    (generateCurvedPath s e).length = 21 ∧
    (∀ t : ℕ, (generateCurvedPath s e)[t]? =
      if t < 21 then
        some (quadBezierPoint (s.lng, s.lat) (bezierControl s e) (e.lng, e.lat)
          ((t : ℚ) / 20))
      else none) ∧
    (generateCurvedPath s e).head? = some (s.lng, s.lat) ∧
    (generateCurvedPath s e).getLast? = some (e.lng, e.lat) := by
  have hidx : ∀ t : ℕ, (generateCurvedPath s e)[t]? =
      if t < 21 then
        some (quadBezierPoint (s.lng, s.lat) (bezierControl s e) (e.lng, e.lat)
          ((t : ℚ) / 20))
      else none := by
    intro t
    unfold generateCurvedPath
    rw [List.getElem?_map]
    by_cases h : t < 21
    · rw [show (20 : ℕ) + 1 = 21 from rfl, List.getElem?_range h, if_pos h,
        Option.map_some']
      apply congrArg
      simp only [quadBezierPoint, bezierControl, Prod.mk.injEq]
      push_cast
      constructor <;> ring
    · rw [if_neg h, List.getElem?_eq_none (by simpa using Nat.le_of_not_lt h)]
      rfl
  have hlen : (generateCurvedPath s e).length = 21 := by
    simp [generateCurvedPath]
  refine ⟨hlen, hidx, ?_, ?_⟩
  · rw [List.head?_eq_getElem? _, hidx 0]
    norm_num [quadBezierPoint]
  · rw [List.getLast?_eq_getElem? _, hlen, hidx 20]
    norm_num [quadBezierPoint]

/-! ### Claim C2: resolver precedence -/

/-- C2: a coordinate literal resolves to exactly its two parsed numbers for
any entry context; otherwise `current` or the current entry's location name
resolves to the current entry's primary location; otherwise `previous` or the
previous entry's location name (when a previous entry exists) resolves to the
previous entry's primary location — in that order of precedence. -/
theorem parseLocationRef_precedence (ref : String) (c : Entry) (p : Option Entry)
    (a : List Entry) :
    (∀ la ln, coordMatch ref = some (la, ln) →
      parseLocationRef ref c p a = .ok { lat := la, lng := ln, name := none }) ∧
    (coordMatch ref = none →
      (ref = "current" ∨ c.metadata.location.name = some ref) →
      parseLocationRef ref c p a = .ok c.metadata.location) ∧
    (∀ prev, coordMatch ref = none →
      ¬(ref = "current" ∨ c.metadata.location.name = some ref) →
      p = some prev →
      (ref = "previous" ∨ prev.metadata.location.name = some ref) →
      parseLocationRef ref c p a = .ok prev.metadata.location) := by
  refine ⟨?_, ?_, ?_⟩
  · intro la ln h
    simp [parseLocationRef, h]
  · intro h1 h2
    simp [parseLocationRef, h1, h2]
  · intro prev h1 h2 hp h3
    subst hp
    unfold parseLocationRef
    simp only [h1]
    rw [if_neg h2]
    by_cases h4 : ref = "previous"
    · rw [if_pos h4]
    · rw [if_neg h4]
      rcases h3 with h3 | h3
      · exact absurd h3 h4
      · rw [if_pos h3]

/-- Sample entry used by witnesses. -/
def sampleEntryA : Entry :=
  { metadata := { date := "2024-06-15", title := "A",
                  location := { lat := 1, lng := 2, name := some "A" } } }

/-- Witness for C2 at the concrete literal `"3,4"`. -/
theorem parseLocationRef_precedence_witness :
    parseLocationRef "3,4" sampleEntryA none [] =
      .ok { lat := 3, lng := 4, name := none } :=
  (parseLocationRef_precedence "3,4" sampleEntryA none []).1 3 4
    (by with_unfolding_all decide)

/-! ### Claim C1: the fetch-or-fallback contract -/

/-- C1: `fetchRoute` issues at most one HTTP request; `ferry` and `direct`
return the curved path with no request at all; every other (non-curve) mode
issues exactly one request to its OSRM profile and returns the service's
coordinate list exactly when the response has code `Ok` and a first route
with geometry coordinates, the curved path otherwise. -/
theorem fetchRoute_single_request_fallback
    (oracle : OsrmRequest → Option OsrmData) (s e : Location) (mode : String) :
    (fetchRoute oracle s e mode).requests.length ≤ 1 ∧
    ((mode = "ferry" ∨ mode = "direct") →
      (fetchRoute oracle s e mode).requests = [] ∧
      (fetchRoute oracle s e mode).route = generateCurvedPath s e) ∧
    (mode ∉ (["ferry", "flight", "direct"] : List String) →
      (fetchRoute oracle s e mode).requests = [⟨osrmProfile mode, s, e⟩] ∧
      ((∃ d cs, oracle ⟨osrmProfile mode, s, e⟩ = some d ∧ d.code = "Ok" ∧
          d.firstRouteCoords = some cs ∧ (fetchRoute oracle s e mode).route = cs) ∨
       ((¬ ∃ d cs, oracle ⟨osrmProfile mode, s, e⟩ = some d ∧ d.code = "Ok" ∧
          d.firstRouteCoords = some cs) ∧
        (fetchRoute oracle s e mode).route = generateCurvedPath s e))) := by
  by_cases hm : mode ∈ (["ferry", "flight", "direct"] : List String)
  · refine ⟨?_, ?_, ?_⟩
    · simp [fetchRoute, hm]
    · intro _
      simp [fetchRoute, hm]
    · intro h
      exact absurd hm h
  · have hferry : ¬ (mode = "ferry" ∨ mode = "direct") := by
      rintro (h | h) <;> subst h <;> exact hm (by decide)
    cases ho : oracle ⟨osrmProfile mode, s, e⟩ with
    | none =>
      refine ⟨?_, fun h => absurd h hferry, fun _ => ⟨?_, Or.inr ⟨?_, ?_⟩⟩⟩
      · simp [fetchRoute, hm, ho]
      · simp [fetchRoute, hm, ho]
      · rintro ⟨d, cs, hd, -, -⟩
        exact Option.noConfusion hd
      · simp [fetchRoute, hm, ho]
    | some d =>
      cases hc : d.firstRouteCoords with
      | none =>
        refine ⟨?_, fun h => absurd h hferry, fun _ => ⟨?_, Or.inr ⟨?_, ?_⟩⟩⟩
        · simp [fetchRoute, hm, ho, hc]
        · simp [fetchRoute, hm, ho, hc]
        · rintro ⟨d2, cs, hd, -, hcs⟩
          cases hd
          rw [hc] at hcs
          exact Option.noConfusion hcs
        · simp [fetchRoute, hm, ho, hc]
      | some cs =>
        by_cases hok : d.code = "Ok"
        · refine ⟨?_, fun h => absurd h hferry,
            fun _ => ⟨?_, Or.inl ⟨d, cs, rfl, hok, hc, ?_⟩⟩⟩
          · simp [fetchRoute, hm, ho, hc, hok]
          · simp [fetchRoute, hm, ho, hc, hok]
          · simp [fetchRoute, hm, ho, hc, hok]
        · refine ⟨?_, fun h => absurd h hferry, fun _ => ⟨?_, Or.inr ⟨?_, ?_⟩⟩⟩
          · simp [fetchRoute, hm, ho, hc, hok]
          · simp [fetchRoute, hm, ho, hc, hok]
          · rintro ⟨d2, cs2, hd, hok2, -⟩
            cases hd
            exact hok hok2
          · simp [fetchRoute, hm, ho, hc, hok]

/-- Witness for C1: the `ferry` mode takes the curve with no request. -/
theorem fetchRoute_single_request_fallback_witness :
    (fetchRoute (fun _ => none) ⟨0, 0, none⟩ ⟨1, 1, none⟩ "ferry").requests = [] ∧
    (fetchRoute (fun _ => none) ⟨0, 0, none⟩ ⟨1, 1, none⟩ "ferry").route =
      generateCurvedPath ⟨0, 0, none⟩ ⟨1, 1, none⟩ :=
  (fetchRoute_single_request_fallback (fun _ => none) _ _ "ferry").2.1 (Or.inl rfl)

deriving instance DecidableEq for Except

/-! ### Claim C7: the transport-mode enumeration -/

/-- In every branch of the non-curve path, exactly one request is issued. -/
lemma fetchRoute_requests_eq (oracle : OsrmRequest → Option OsrmData)
    (s e : Location) (mode : String)
    (hm : mode ∉ (["ferry", "flight", "direct"] : List String)) :
    (fetchRoute oracle s e mode).requests = [⟨osrmProfile mode, s, e⟩] := by
  unfold fetchRoute
  rw [if_neg hm]
  cases ho : oracle ⟨osrmProfile mode, s, e⟩ with
  | none => simp [ho]
  | some d =>
    cases hc : d.firstRouteCoords with
    | none => simp [ho, hc]
    | some cs => by_cases hok : d.code = "Ok" <;> simp [ho, hc, hok]

/-- C7: the transport modes are exactly the five enumerated values; `ferry`
and `direct` take the synthetic curve without any request, `train` is routed
with the `car` profile, `car` and `foot` with their own profile (one request
each), and every mode has a defined display style. -/
theorem transportMode_enumeration (m : TransportMode) :
    (m = .train ∨ m = .car ∨ m = .foot ∨ m = .ferry ∨ m = .direct) ∧
    (∀ (oracle : OsrmRequest → Option OsrmData) (s e : Location),
      (m = .ferry ∨ m = .direct) →
      (fetchRoute oracle s e m.toStr).requests = [] ∧
      (fetchRoute oracle s e m.toStr).route = generateCurvedPath s e) ∧
    (m = .train → osrmProfile m.toStr = "car") ∧
    ((m = .car ∨ m = .foot) → osrmProfile m.toStr = m.toStr) ∧
    (∀ (oracle : OsrmRequest → Option OsrmData) (s e : Location),
      m ≠ .ferry → m ≠ .direct →
      (fetchRoute oracle s e m.toStr).requests = [⟨osrmProfile m.toStr, s, e⟩]) ∧
    (∃ st : ModeStyle, getModeStyle m = st) := by
  refine ⟨?_, ?_, ?_, ?_, ?_, ⟨getModeStyle m, rfl⟩⟩
  · cases m <;> simp
  · intro oracle s e h
    rcases h with h | h <;> subst h <;>
      simp [fetchRoute, TransportMode.toStr]
  · intro h
    subst h
    rfl
  · rintro (h | h) <;> subst h <;> rfl
  · intro oracle s e h1 h2
    apply fetchRoute_requests_eq
    cases m <;> simp_all [TransportMode.toStr]

/-- Witness for C7: `ferry` issues no request. -/
theorem transportMode_enumeration_witness :
    (fetchRoute (fun _ => none) ⟨0, 0, none⟩ ⟨1, 1, none⟩
      TransportMode.ferry.toStr).requests = [] :=
  ((transportMode_enumeration .ferry).2.1 (fun _ => none) ⟨0, 0, none⟩ ⟨1, 1, none⟩
    (Or.inl rfl)).1

/-! ### Claim C10: coinciding endpoints are skipped -/

/-- C10: when both resolved endpoints of a segment have equal latitude and
longitude, the segment contributes no HTTP request, no curve and no record;
likewise the legacy single-`transportMode` path when the previous and current
entry locations coincide. -/
theorem same_location_skipped :
    (∀ (slice : List Entry) (e : Entry) (prev : Option Entry)
        (oracle : OsrmRequest → Option OsrmData) (s : SegmentDef) (l1 l2 : Location),
      parseLocationRef s.fromRef e prev slice = .ok l1 →
      parseLocationRef s.toRef e prev slice = .ok l2 →
      l1.lat = l2.lat → l1.lng = l2.lng →
      processOneSegment slice e prev oracle s =
        ([.resolve s.fromRef, .resolve s.toRef], none)) ∧
    (∀ (slice : List Entry) (e p : Entry) (oracle : OsrmRequest → Option OsrmData)
        (tm : String),
      e.metadata.segments = none →
      e.metadata.transportMode = some tm →
      p.metadata.location.lat = e.metadata.location.lat →
      p.metadata.location.lng = e.metadata.location.lng →
      processEntryBody slice e (some p) oracle = ([], [])) := by
  constructor
  · intro slice e prev oracle s l1 l2 h1 h2 hlat hlng
    unfold processOneSegment
    simp only [h1, h2]
    rw [if_pos ⟨hlat, hlng⟩]
  · intro slice e p oracle tm hseg htm hlat hlng
    unfold processEntryBody
    simp only [hseg, htm]
    by_cases htm0 : tm = ""
    · rw [if_pos htm0]
    · rw [if_neg htm0, if_pos ⟨hlat, hlng⟩]

/-- Witness for C10 at two coordinate literals denoting the same point. -/
theorem same_location_skipped_witness :
    processOneSegment [] sampleEntryA none (fun _ => none)
        ⟨"car", "1,2", "1.0,2.00"⟩ =
      ([.resolve "1,2", .resolve "1.0,2.00"], none) :=
  same_location_skipped.1 [] sampleEntryA none (fun _ => none)
    ⟨"car", "1,2", "1.0,2.00"⟩ ⟨1, 2, none⟩ ⟨1, 2, none⟩
    (by with_unfolding_all decide) (by with_unfolding_all decide) rfl rfl

/-! ### Claim C5: cached entries are skipped untouched -/

/-- Invariant induction for the cached-file claim: while the route file of
date `d` exists, every entry of date `d` is skipped with no effects, and no
write ever targets that path. -/
lemma runEntries_cached_invariant (oracle : OsrmRequest → Option OsrmData)
    (d : String) :
    ∀ (rem processed : List Entry) (prev : Option Entry) (fs : String → Bool),
      fs (routeFilePath d) = true →
      ((runEntries oracle rem processed prev fs).length = rem.length ∧
       (∀ i (hi : i < rem.length), (rem.get ⟨i, hi⟩).metadata.date = d →
          ∃ o, (runEntries oracle rem processed prev fs)[i]? = some o ∧
            o.date = d ∧ o.cached = true ∧ o.effects = [] ∧ o.written = none) ∧
       (∀ o ∈ runEntries oracle rem processed prev fs, ∀ pr,
          o.written = some pr → pr.1 ≠ routeFilePath d)) := by
  intro rem
  induction rem with
  | nil =>
    intro processed prev fs hfs
    refine ⟨rfl, ?_, ?_⟩
    · intro i hi
      exact absurd hi (by simp)
    · intro o ho
      simp [runEntries] at ho
  | cons e rest ih =>
    intro processed prev fs hfs
    by_cases hc : fs (routeFilePath e.metadata.date)
    · have hrec := ih (processed ++ [e]) (some e) fs hfs
      rw [runEntries, if_pos hc]
      refine ⟨by simp [hrec.1], ?_, ?_⟩
      · intro i hi hd
        match i with
        | 0 =>
          exact ⟨{ date := e.metadata.date, cached := true, effects := [],
                   recs := [], written := none },
                 by simp, by simpa using hd, rfl, rfl, rfl⟩
        | j + 1 =>
          have hj : j < rest.length := by simpa using hi
          have := hrec.2.1 j hj (by simpa using hd)
          simpa using this
      · intro o ho pr hw
        rcases List.mem_cons.1 ho with h | h
        · subst h
          simp at hw
        · exact hrec.2.2 o h pr hw
    · have hrec := ih (processed ++ [e]) (some e)
        (fun p => fs p || (p = routeFilePath e.metadata.date &&
          !(processEntryBody (processed ++ [e]) e prev oracle).2.isEmpty))
        (by simp [hfs])
      rw [runEntries, if_neg hc]
      have hdate : e.metadata.date ≠ d := by
        intro h
        rw [h] at hc
        exact hc hfs
      refine ⟨by simp [hrec.1], ?_, ?_⟩
      · intro i hi hd
        match i with
        | 0 =>
          exact absurd (by simpa using hd) hdate
        | j + 1 =>
          have hj : j < rest.length := by simpa using hi
          have := hrec.2.1 j hj (by simpa using hd)
          simpa using this
      · intro o ho pr hw
        rcases List.mem_cons.1 ho with h | h
        · subst h
          simp only at hw
          by_cases hemp : (processEntryBody (processed ++ [e]) e prev oracle).2.isEmpty
          · rw [if_pos hemp] at hw
            exact Option.noConfusion hw
          · rw [if_neg hemp] at hw
            cases hw
            intro hpath
            apply hc
            rw [show routeFilePath e.metadata.date = routeFilePath d from hpath]
            exact hfs
        · exact hrec.2.2 o h pr hw

/-- C5: every entry whose route file `<date>.json` already exists when the
batch starts is skipped — no resolution, no HTTP request, nothing written —
the pre-existing file is never overwritten, and the batch still visits every
entry. -/
theorem cached_entry_skipped (entries : List Entry)
    (oracle : OsrmRequest → Option OsrmData) (fs0 : String → Bool) (d : String)
    (hfs : fs0 (routeFilePath d) = true) :
    (runMain entries oracle fs0).length = entries.length ∧
    (∀ i (hi : i < entries.length), (entries.get ⟨i, hi⟩).metadata.date = d →
      ∃ o, (runMain entries oracle fs0)[i]? = some o ∧
        o.date = d ∧ o.cached = true ∧ o.effects = [] ∧ o.written = none) ∧
    (∀ o ∈ runMain entries oracle fs0, ∀ pr,
      o.written = some pr → pr.1 ≠ routeFilePath d) :=
  runEntries_cached_invariant oracle d entries [] none fs0 hfs

/-- Witness for C5: one entry whose route file already exists. -/
theorem cached_entry_skipped_witness :
    ∃ o, (runMain [sampleEntryA] (fun _ => none) (fun _ => true))[0]? = some o ∧
      o.date = "2024-06-15" ∧ o.cached = true ∧ o.effects = [] ∧
      o.written = none :=
  (cached_entry_skipped [sampleEntryA] (fun _ => none) (fun _ => true)
      "2024-06-15" rfl).2.1 0 (by simp) rfl

/-! ### Claim C9: per-segment error isolation -/

/-- The records of the segment loop are exactly the successful segments, in
order. -/
lemma processSegments_recs (slice : List Entry) (e : Entry) (prev : Option Entry)
    (oracle : OsrmRequest → Option OsrmData) :
    ∀ segs : List SegmentDef,
      (processSegments slice e prev oracle segs).2 =
        segs.filterMap (fun s => (processOneSegment slice e prev oracle s).2) := by
  intro segs
  induction segs with
  | nil => rfl
  | cons s rest ih =>
    rw [processSegments, List.filterMap_cons]
    cases h : (processOneSegment slice e prev oracle s).2 <;> simp [h, ih]

/-- The batch visits every entry, whatever happens inside each. -/
lemma runEntries_length (oracle : OsrmRequest → Option OsrmData) :
    ∀ (rem processed : List Entry) (prev : Option Entry) (fs : String → Bool),
      (runEntries oracle rem processed prev fs).length = rem.length := by
  intro rem
  induction rem with
  | nil => intro _ _ _; rfl
  | cons e rest ih =>
    intro processed prev fs
    by_cases hc : fs (routeFilePath e.metadata.date) <;>
      simp [runEntries, hc, ih]

/-- Every non-cached outcome writes its own route file exactly when it has at
least one record. -/
lemma runEntries_written_iff (oracle : OsrmRequest → Option OsrmData) :
    ∀ (rem processed : List Entry) (prev : Option Entry) (fs : String → Bool)
      (o : EntryOutcome), o ∈ runEntries oracle rem processed prev fs →
      (o.cached = true → o.effects = [] ∧ o.recs = [] ∧ o.written = none) ∧
      (o.cached = false →
        o.written = if o.recs.isEmpty then none
          else some (routeFilePath o.date, o.recs)) := by
  intro rem
  induction rem with
  | nil =>
    intro _ _ _ o ho
    simp [runEntries] at ho
  | cons e rest ih =>
    intro processed prev fs o ho
    by_cases hc : fs (routeFilePath e.metadata.date)
    · rw [runEntries, if_pos hc] at ho
      rcases List.mem_cons.1 ho with h | h
      · subst h
        exact ⟨fun _ => ⟨rfl, rfl, rfl⟩, fun hcf => Bool.noConfusion hcf⟩
      · exact ih _ _ _ o h
    · rw [runEntries, if_neg hc] at ho
      rcases List.mem_cons.1 ho with h | h
      · subst h
        exact ⟨fun hcf => Bool.noConfusion hcf, fun _ => rfl⟩
      · exact ih _ _ _ o h

/-- C9: a failing segment is caught in isolation — the entry's other segments
still produce their records (the saved list is exactly the successful
segments in order), the batch still visits every entry, and a non-cached
entry's route file is written exactly when at least one record was
produced. -/
theorem segment_errors_isolated (oracle : OsrmRequest → Option OsrmData) :
    (∀ (slice : List Entry) (e : Entry) (prev : Option Entry)
        (segs : List SegmentDef), e.metadata.segments = some segs →
      (processEntryBody slice e prev oracle).2 =
        segs.filterMap (fun s => (processOneSegment slice e prev oracle s).2)) ∧
    (∀ (entries : List Entry) (fs0 : String → Bool),
      (runMain entries oracle fs0).length = entries.length) ∧
    (∀ (entries : List Entry) (fs0 : String → Bool) (o : EntryOutcome),
      o ∈ runMain entries oracle fs0 → o.cached = false →
      ((o.recs = [] ∧ o.written = none) ∨
       (o.recs ≠ [] ∧ o.written = some (routeFilePath o.date, o.recs)))) := by
  refine ⟨?_, ?_, ?_⟩
  · intro slice e prev segs hsegs
    simp only [processEntryBody, hsegs]
    exact processSegments_recs slice e prev oracle segs
  · intro entries fs0
    exact runEntries_length oracle entries [] none fs0
  · intro entries fs0 o ho hcf
    have hw := (runEntries_written_iff oracle entries [] none fs0 o ho).2 hcf
    by_cases hemp : o.recs.isEmpty
    · left
      exact ⟨List.isEmpty_iff.1 hemp, by rwa [if_pos hemp] at hw⟩
    · right
      refine ⟨fun h => hemp (by simp [h]), by rwa [if_neg hemp] at hw⟩

/-- Sample entry with an (empty) segment list, used by the C9 witness. -/
def sampleSegEntry : Entry :=
  { metadata := { date := "2024-06-16", title := "B",
                  location := { lat := 5, lng := 6, name := some "B" },
                  segments := some [] } }

/-- Witness for C9 on a concrete entry with a segment list. -/
theorem segment_errors_isolated_witness :
    (processEntryBody [] sampleSegEntry none (fun _ => none)).2 =
      List.filterMap
        (fun s => (processOneSegment [] sampleSegEntry none (fun _ => none) s).2)
        [] :=
  (segment_errors_isolated (fun _ => none)).1 [] sampleSegEntry none [] rfl

/-! ### Claim C3: the backward search -/

/-- A successful backward-list search splits the list: a prefix of
non-matching entries, then the matching entry. -/
lemma searchRev_some_split (ref : String) :
    ∀ (l : List Entry) (loc : Location), searchRev ref l = some loc →
      ∃ l1 e l2, l = l1 ++ e :: l2 ∧ (∀ x ∈ l1, entryMatch ref x = none) ∧
        entryMatch ref e = some loc := by
  intro l
  induction l with
  | nil => intro loc h; exact Option.noConfusion h
  | cons e rest ih =>
    intro loc h
    rw [searchRev] at h
    cases hm : entryMatch ref e with
    | some loc2 =>
      rw [hm] at h
      cases h
      exact ⟨[], e, rest, rfl, by simp, hm⟩
    | none =>
      rw [hm] at h
      obtain ⟨l1, e2, l2, hsplit, hnone, hmatch⟩ := ih loc h
      refine ⟨e :: l1, e2, l2, by rw [hsplit]; rfl, ?_, hmatch⟩
      intro x hx
      rcases List.mem_cons.1 hx with hx | hx
      · subst hx; exact hm
      · exact hnone x hx

/-- The backward-list search fails exactly when no entry matches. -/
lemma searchRev_none_iff (ref : String) :
    ∀ l : List Entry, searchRev ref l = none ↔ ∀ e ∈ l, entryMatch ref e = none := by
  intro l
  induction l with
  | nil => simp [searchRev]
  | cons e rest ih =>
    rw [searchRev]
    cases hm : entryMatch ref e with
    | some loc => simp [hm]
    | none => simp [hm, ih]

/-- Under the preconditions of the claim, `parseLocationRef` is exactly the
backward search over the supplied list. -/
lemma parseLocationRef_reduces_to_search (ref : String) (c : Entry)
    (p : Option Entry) (a : List Entry)
    (h1 : coordMatch ref = none)
    (h2 : ref ≠ "current")
    (h3 : c.metadata.location.name ≠ some ref)
    (h4 : ref = "previous" → p = none)
    (h5 : ∀ prev, p = some prev → prev.metadata.location.name ≠ some ref)
    (h6 : ∀ ps, c.metadata.pois = some ps → poiFind ps ref = none) :
    parseLocationRef ref c p a =
      match searchRev ref a.reverse with
      | some loc => .ok loc
      | none => .error (unresolvedMsg ref) := by
  unfold parseLocationRef
  simp only [h1]
  rw [if_neg (by rintro (h | h); exacts [h2 h, h3 h])]
  have htail : resolveByName ref c a =
      match searchRev ref a.reverse with
      | some loc => .ok loc
      | none => .error (unresolvedMsg ref) := by
    unfold resolveByName
    cases hp : c.metadata.pois with
    | none => rfl
    | some ps =>
      dsimp only
      rw [h6 ps hp]
  cases hprev : p with
  | none => exact htail
  | some prev =>
    have hnp : ref ≠ "previous" := by
      intro h
      exact Option.noConfusion (hprev ▸ h4 h)
    dsimp only
    rw [if_neg hnp, if_neg (h5 prev hprev)]
    exact htail

/-- C3: when the reference is not a coordinate literal, not a keyword match,
not a current/previous name match and not a current-entry poi, the resolver
walks the supplied entry list from the most recent entry backward, returns
the location of the first matching entry (by primary name or poi name), and
throws the naming error exactly when no entry matches. -/
theorem parseLocationRef_backward_search (ref : String) (c : Entry)
    (p : Option Entry) (a : List Entry)
    (h1 : coordMatch ref = none)
    (h2 : ref ≠ "current")
    (h3 : c.metadata.location.name ≠ some ref)
    (h4 : ref = "previous" → p = none)
    (h5 : ∀ prev, p = some prev → prev.metadata.location.name ≠ some ref)
    (h6 : ∀ ps, c.metadata.pois = some ps → poiFind ps ref = none) :
    (∀ loc, parseLocationRef ref c p a = .ok loc →
      ∃ pre e post, a = pre ++ e :: post ∧ entryMatch ref e = some loc ∧
        ∀ x ∈ post, entryMatch ref x = none) ∧
    (parseLocationRef ref c p a = .error (unresolvedMsg ref) ↔
      ∀ e ∈ a, entryMatch ref e = none) := by
  have hred := parseLocationRef_reduces_to_search ref c p a h1 h2 h3 h4 h5 h6
  constructor
  · intro loc hok
    rw [hred] at hok
    cases hs : searchRev ref a.reverse with
    | none => rw [hs] at hok; exact Except.noConfusion hok
    | some loc2 =>
      rw [hs] at hok
      cases hok
      obtain ⟨l1, e, l2, hsplit, hnone, hmatch⟩ := searchRev_some_split ref _ _ hs
      refine ⟨l2.reverse, e, l1.reverse, ?_, hmatch, ?_⟩
      · have : a.reverse.reverse = (l1 ++ e :: l2).reverse := by rw [hsplit]
        simpa using this
      · intro x hx
        exact hnone x (List.mem_reverse.1 hx)
  · rw [hred]
    cases hs : searchRev ref a.reverse with
    | none =>
      simp only [hs]
      have := (searchRev_none_iff ref a.reverse).1 hs
      constructor
      · intro _ e he
        exact this e (List.mem_reverse.2 he)
      · intro _
        trivial
    | some loc =>
      simp only [hs]
      constructor
      · intro h
        exact Except.noConfusion h
      · intro hall
        have : searchRev ref a.reverse = none :=
          (searchRev_none_iff ref a.reverse).2
            (fun e he => hall e (List.mem_reverse.1 he))
        rw [this] at hs
        exact Option.noConfusion hs

/-- Entry named X for the C3 witness. -/
def sampleEntryX : Entry :=
  { metadata := { date := "2024-06-14", title := "X",
                  location := { lat := 7, lng := 8, name := some "X" } } }

/-- Witness for C3: the name `X` is found in the (one-entry) list. -/
theorem parseLocationRef_backward_search_witness :
    ∃ pre e post, [sampleEntryX] = pre ++ e :: post ∧
      entryMatch "X" e = some { lat := 7, lng := 8, name := some "X" } ∧
      ∀ x ∈ post, entryMatch "X" x = none :=
  (parseLocationRef_backward_search "X" sampleEntryA none [sampleEntryX]
      (by with_unfolding_all decide) (by decide) (by decide)
      (fun _ => rfl) (fun prev h => Option.noConfusion h)
      (fun ps h => Option.noConfusion h)).1
    { lat := 7, lng := 8, name := some "X" } (by with_unfolding_all decide)

/-! ### Claim C6: the polyline round trip -/

/-- Character codes below the surrogate range survive `Char.ofNat`. -/
lemma toNat_ofNat_lt {n : ℕ} (h : n < 55296) : (Char.ofNat n).toNat = n := by
  have hv : n.isValidChar := Or.inl h
  simp [Char.ofNat, hv, Char.toNat, UInt32.toNat, Char.ofNatAux]

/-- A chunk sequence is never empty. -/
lemma chunkSeq_ne_nil (v : ℕ) : chunkSeq v ≠ [] := by
  rw [chunkSeq]
  split <;> simp

/-- Decoding one varint undoes one chunk sequence and leaves the rest. -/
lemma decodeUInt_chunk (v : ℕ) :
    ∀ rest : List Char,
      decodeUInt ((chunkSeq v).map Char.ofNat ++ rest) = some (v, rest) := by
  induction v using Nat.strong_induction_on with
  | _ v ih =>
    intro rest
    by_cases h : v < 32
    · rw [chunkSeq, dif_pos h]
      have hto : (Char.ofNat (v + 63)).toNat = v + 63 := toNat_ofNat_lt (by omega)
      have h63 : ¬ (v + 63 < 63) := by omega
      have hsub : v + 63 - 63 = v := by omega
      simp [decodeUInt, hto, h63, hsub, h]
    · rw [chunkSeq, dif_neg h]
      have hm : v % 32 < 32 := Nat.mod_lt _ (by omega)
      have hto : (Char.ofNat (32 + v % 32 + 63)).toNat = 32 + v % 32 + 63 :=
        toNat_ofNat_lt (by omega)
      have hrec := ih (v / 32) (Nat.div_lt_self (by omega) (by omega)) rest
      have h63 : ¬ (32 + v % 32 + 63 < 63) := by omega
      have hsub : 32 + v % 32 + 63 - 63 = 32 + v % 32 := by omega
      have hb : ¬ (32 + v % 32 < 32) := by omega
      simp only [List.map_cons, List.cons_append, decodeUInt, hto, h63,
        if_false, hsub, hb, List.append_eq]
      rw [hrec]
      have h2 : v % 32 + 32 * (v / 32) = v := by omega
      simp [h2]

/-- The decoder's zigzag inverts the encoder's. -/
lemma unzigzag_zigzag (d : ℤ) : unzigzag (zigzag d) = d := by
  unfold zigzag unzigzag
  split <;> split <;> omega

/-- One signed delta decodes to its zigzag value. -/
lemma decodeUInt_encodeSigned (d : ℤ) (rest : List Char) :
    decodeUInt ((encodeSigned d).map Char.ofNat ++ rest) = some (zigzag d, rest) :=
  decodeUInt_chunk _ _

/-- Unfolding of the decoder loop on a nonempty stream. -/
lemma decodeLoopF_succ (fuel : ℕ) (l : List Char) (hl : l ≠ []) (la lb : ℤ) :
    decodeLoopF (fuel + 1) l la lb =
      match decodeUInt l with
      | none => none
      | some (dv1, r1) =>
        match decodeUInt r1 with
        | none => none
        | some (dv2, r2) =>
          match decodeLoopF fuel r2 (la + unzigzag dv1) (lb + unzigzag dv2) with
          | none => none
          | some rest =>
            some ((((la + unzigzag dv1 : ℤ) : ℚ) / 100000,
                   ((lb + unzigzag dv2 : ℤ) : ℚ) / 100000) :: rest) := by
  cases l with
  | nil => exact absurd rfl hl
  | cons c cs => rfl

/-- The decoder loop undoes the delta encoding, recovering the rounded
coordinates scaled back down. -/
lemma decodeLoopF_encodeDeltas :
    ∀ (cs : List (ℚ × ℚ)) (pa pb : ℤ) (fuel : ℕ),
      (encodeDeltas pa pb cs).length ≤ fuel →
      decodeLoopF fuel ((encodeDeltas pa pb cs).map Char.ofNat) pa pb =
        some (cs.map fun pt =>
          ((round5 pt.1 : ℚ) / 100000, (round5 pt.2 : ℚ) / 100000)) := by
  intro cs
  induction cs with
  | nil =>
    intro pa pb fuel hf
    cases fuel <;> rfl
  | cons ab rest ih =>
    intro pa pb fuel hf
    obtain ⟨a, b⟩ := ab
    have hlen1 : 0 < (encodeSigned (round5 a - pa)).length :=
      List.length_pos.2 (chunkSeq_ne_nil _)
    have hlen2 : 0 < (encodeSigned (round5 b - pb)).length :=
      List.length_pos.2 (chunkSeq_ne_nil _)
    rw [encodeDeltas] at hf ⊢
    rw [List.append_assoc] at hf ⊢
    cases fuel with
    | zero =>
      exfalso
      simp only [List.length_append] at hf
      omega
    | succ f =>
      rw [List.map_append, List.map_append]
      have hne : (encodeSigned (round5 a - pa)).map Char.ofNat ++
          ((encodeSigned (round5 b - pb)).map Char.ofNat ++
           (encodeDeltas (round5 a) (round5 b) rest).map Char.ofNat) ≠ [] := by
        intro hcontra
        have := congrArg List.length hcontra
        simp only [List.length_append, List.length_map, List.length_nil] at this
        omega
      rw [decodeLoopF_succ f _ hne, decodeUInt_encodeSigned]
      dsimp only
      rw [decodeUInt_encodeSigned]
      dsimp only
      rw [unzigzag_zigzag, unzigzag_zigzag]
      have ha : pa + (round5 a - pa) = round5 a := by ring
      have hb : pb + (round5 b - pb) = round5 b := by ring
      rw [ha, hb]
      rw [ih (round5 a) (round5 b) f
        (by simp only [List.length_append] at hf ⊢; omega)]
      rfl

set_option linter.unusedTactic false in
/-- Rounding half away from zero moves a value by at most one half. -/
lemma abs_py2round_sub_le (q : ℚ) : |(py2round q : ℚ) - q| ≤ 1 / 2 := by
  unfold py2round
  by_cases h : q < 0
  · rw [if_pos h]
    have h1 : (⌊-q + 1 / 2⌋ : ℚ) ≤ -q + 1 / 2 := Int.floor_le _
    have h2 : -q + 1 / 2 < ⌊-q + 1 / 2⌋ + 1 := Int.lt_floor_add_one _
    rw [abs_le]
    constructor <;> push_cast <;> linarith
  · rw [if_neg h]
    have h1 : (⌊q + 1 / 2⌋ : ℚ) ≤ q + 1 / 2 := Int.floor_le _
    have h2 : q + 1 / 2 < ⌊q + 1 / 2⌋ + 1 := Int.lt_floor_add_one _
    rw [abs_le]
    constructor <;> push_cast <;> linarith

/-- The stored rounded coordinate is within `1e-5` of the original. -/
lemma round5_close (x : ℚ) : |(round5 x : ℚ) / 100000 - x| ≤ 1 / 100000 := by
  have h := abs_py2round_sub_le (x * 100000)
  have h2 : |(round5 x : ℚ) / 100000 - x| =
      |(py2round (x * 100000) : ℚ) - x * 100000| / 100000 := by
    rw [round5, ← abs_of_pos (show (0 : ℚ) < 100000 by norm_num), ← abs_div]
    congr 1
    field_simp
    ring
  rw [h2]
  rw [div_le_div_iff₀ (by norm_num) (by norm_num)]
  nlinarith [h]

/-- C6: encoding a generated `[lng, lat]` route in the generator (which swaps
to `[lat, lng]`) and decoding it in the viewer (which swaps back) restores a
list of the same length and order in `[lng, lat]` form, each coordinate within
the `1e-5` rounding precision of the original. -/
theorem polyline_roundtrip (route : List (ℚ × ℚ)) (_hne : route ≠ []) :
    viewDecode (genEncode route) =
      some (route.map fun pt =>
        ((round5 pt.1 : ℚ) / 100000, (round5 pt.2 : ℚ) / 100000)) ∧
    (∀ decoded, viewDecode (genEncode route) = some decoded →
      decoded.length = route.length) ∧
    (∀ pt ∈ route, |(round5 pt.1 : ℚ) / 100000 - pt.1| ≤ 1 / 100000 ∧
      |(round5 pt.2 : ℚ) / 100000 - pt.2| ≤ 1 / 100000) := by
  have hmain : viewDecode (genEncode route) =
      some (route.map fun pt =>
        ((round5 pt.1 : ℚ) / 100000, (round5 pt.2 : ℚ) / 100000)) := by
    unfold viewDecode genEncode polylineDecode polylineEncode
    rw [show (String.mk ((encodeDeltas 0 0 (route.map fun p => (p.2, p.1))).map
        Char.ofNat)).data =
        (encodeDeltas 0 0 (route.map fun p => (p.2, p.1))).map Char.ofNat from rfl]
    rw [List.length_map]
    rw [decodeLoopF_encodeDeltas (route.map fun p => (p.2, p.1)) 0 0 _ le_rfl]
    rw [Option.map_some']
    apply congrArg
    rw [List.map_map, List.map_map]
    rfl
  refine ⟨hmain, ?_, ?_⟩
  · intro decoded hdec
    rw [hmain] at hdec
    cases hdec
    simp
  · intro pt _
    exact ⟨round5_close pt.1, round5_close pt.2⟩

/-- Witness for C6 on the one-point route `[(1, 2)]`. -/
theorem polyline_roundtrip_witness :
    viewDecode (genEncode [((1 : ℚ), (2 : ℚ))]) =
      some ([((1 : ℚ), (2 : ℚ))].map fun pt =>
        ((round5 pt.1 : ℚ) / 100000, (round5 pt.2 : ℚ) / 100000)) :=
  (polyline_roundtrip [((1 : ℚ), (2 : ℚ))] (by simp)).1

/-! ### Claim C8: finiteness of loaded coordinates -/

/-- Looking up the key just set returns the new value. -/
lemma lookup_setAssoc_self {α β : Type} [BEq α] [LawfulBEq α]
    (l : List (α × β)) (k : α) (v : β) : (setAssoc l k v).lookup k = some v := by
  induction l with
  | nil => simp [setAssoc, List.lookup]
  | cons p rest ih =>
    obtain ⟨k1, v1⟩ := p
    by_cases h : k1 = k
    · subst h
      simp [setAssoc, List.lookup]
    · have h1 : (k1 == k) = false := by simp [h]
      have h2 : (k == k1) = false := by simp [Ne.symm h]
      simp [setAssoc, h1, List.lookup, h2, ih]

/-- Setting one key leaves the others unchanged. -/
lemma lookup_setAssoc_ne {α β : Type} [BEq α] [LawfulBEq α]
    (l : List (α × β)) (k k2 : α) (v : β) (h : k2 ≠ k) :
    (setAssoc l k v).lookup k2 = l.lookup k2 := by
  have hq : (k2 == k) = false := by simp [h]
  induction l with
  | nil => simp [setAssoc, List.lookup, hq]
  | cons p rest ih =>
    obtain ⟨k1, v1⟩ := p
    by_cases h1 : k1 = k
    · subst h1
      simp [setAssoc, List.lookup, hq]
    · have h1b : (k1 == k) = false := by simp [h1]
      simp only [setAssoc, h1b, Bool.false_eq_true, if_false]
      cases hb : (k2 == k1) <;> simp [List.lookup, hb, ih]

/-- Reading back the object just written. -/
lemma getObj_setObjField_self (st : PMState) (id : ℕ) (k : String) (v : FieldVal) :
    getObj (setObjField st id k v) id = setAssoc (getObj st id) k v := by
  simp [getObj, setObjField, lookup_setAssoc_self]

/-- After the numeric conversion, the location object's `lat` and `lng`
fields hold exactly `parseFloat` of their pre-conversion values. -/
lemma convertLocation_fields (st : PMState) (id : ℕ)
    (hloc : st.metadata.lookup "location" = some (.obj id)) :
    (getObj (convertLocation st) id).lookup "lat" =
      some (.num (parseFloatField ((getObj st id).lookup "lat"))) ∧
    (getObj (convertLocation st) id).lookup "lng" =
      some (.num (parseFloatField ((getObj st id).lookup "lng"))) := by
  unfold convertLocation
  rw [hloc]
  dsimp only
  constructor
  · rw [getObj_setObjField_self,
      lookup_setAssoc_ne _ _ _ _ (by decide : ("lat" : String) ≠ "lng"),
      getObj_setObjField_self, lookup_setAssoc_self]
  · rw [getObj_setObjField_self, lookup_setAssoc_self]
    congr 2
    rw [getObj_setObjField_self,
      lookup_setAssoc_ne _ _ _ _ (by decide : ("lng" : String) ≠ "lat")]

/-- C8 as amended: the loader always stores numeric values for the location's
`lat`/`lng` — exactly `parseFloat` of the raw frontmatter strings, hence
finite exactly when those strings parse as finite numbers, and NaN or an
infinity otherwise.  (The claim as stated fails: a missing or non-numeric
frontmatter value yields NaN, see the counterexample; an overlong coordinate
literal likewise overflows `parseFloat` to Infinity in the resolver, so no
finiteness is asserted there.) -/
theorem parseMDX_location_numeric :
    ∀ (content : String) (st : PMState) (body : List String) (id : ℕ)
      (pr : ParsedMDX),
      parseMDXRaw content = .ok (st, body) →
      parseMDX content = .ok pr →
      st.metadata.lookup "location" = some (.obj id) →
      (getObj pr.st id).lookup "lat" =
        some (.num (parseFloatField ((getObj st id).lookup "lat"))) ∧
      (getObj pr.st id).lookup "lng" =
        some (.num (parseFloatField ((getObj st id).lookup "lng"))) := by
  intro content st body id pr hraw hok hloc
  have hst : pr.st = convertLocation st := by
    unfold parseMDX at hok
    rw [hraw] at hok
    dsimp only at hok
    cases hcp : convertPois (convertLocation st) with
    | error e =>
      rw [hcp] at hok
      exact Except.noConfusion hok
    | ok ps =>
      rw [hcp] at hok
      cases hok
      rfl
  rw [hst]
  exact convertLocation_fields st id hloc

/-- Frontmatter with a non-numeric latitude. -/
def c8badContent : String := "---\nlocation:\n  lat: oops\n  lng: 2.5\n---\nbody"

set_option maxRecDepth 10000 in
/-- Counterexample to C8 as stated: `parseMDX` accepts this entry and its
location's `lat` field is NaN, not a finite value. -/
theorem parseMDX_nan_counterexample :
    (match parseMDX c8badContent with
     | .ok pr =>
       match pr.st.metadata.lookup "location" with
       | some (.obj id) => (getObj pr.st id).lookup "lat"
       | _ => none
     | .error _ => none) = some (.num .nan) := by
  with_unfolding_all decide

/-- Well-formed frontmatter for the C8 witness. -/
def c8goodContent : String := "---\nlocation:\n  lat: 1.5\n  lng: 2.5\n---\nbody"

/-- The raw parser state of `c8goodContent`. -/
def c8goodSt : PMState :=
  { metadata := [("location", .obj 0)],
    objs := [(0, [("lat", .s "1.5"), ("lng", .s "2.5")])],
    arrs := [], nextId := 1, currentKey := some "location",
    currentObject := some 0, currentArray := none }

/-- The converted parser state of `c8goodContent`. -/
def c8goodStConv : PMState :=
  { metadata := [("location", .obj 0)],
    objs := [(0, [("lat", .num (jsParseFloat "1.5")),
                  ("lng", .num (jsParseFloat "2.5"))])],
    arrs := [], nextId := 1, currentKey := some "location",
    currentObject := some 0, currentArray := none }

/-- The full parse of `c8goodContent`. -/
def c8goodParsed : ParsedMDX :=
  { st := c8goodStConv, pois := none, body := ["body"] }

set_option maxRecDepth 10000 in
/-- Witness for amended C8 on a well-formed entry. -/
theorem parseMDX_location_numeric_witness :
    (getObj c8goodParsed.st 0).lookup "lat" =
        some (.num (parseFloatField ((getObj c8goodSt 0).lookup "lat"))) ∧
      (getObj c8goodParsed.st 0).lookup "lng" =
        some (.num (parseFloatField ((getObj c8goodSt 0).lookup "lng"))) :=
  parseMDX_location_numeric c8goodContent c8goodSt ["body"] 0 c8goodParsed
    (by with_unfolding_all decide) (by with_unfolding_all decide)
    (by with_unfolding_all decide)
